import Mathlib

/-!
Verification of the `logger` package (a leveled, tagged console logger) against
its specification.  The Go source (`logger.go`) is shallowly embedded below:
pure helpers become Lean functions, the environmental inputs of a logging call
(wall-clock time, stack introspection results) are passed explicitly through an
`Env` record, writes to the sink are returned as a list of emitted lines, and
`os.Exit` is reflected in an `Outcome` type.  Machine integers are modelled as
`Nat`/`Int` with explicit reductions modulo 2^32 where the Go code computes in
`uint32`; Go's `int` is taken to be 64-bit two's complement (the width on the
platforms Go supports for this code), so the `uint32 → int` conversion is
value-preserving.
-/

set_option maxHeartbeats 1000000

namespace Logger

/-- Severity levels: Go `type level int` with `iota` constants
`Debug = 0`, `Info = 1`, `Warn = 2`, `Error = 3`. -/
abbrev level := Nat

def Debug : level := 0

def Info : level := 1

def Warn : level := 2

def Error : level := 3

/-- Terminal color escape sequences: Go `type color string`. -/
abbrev color := String

def NoColor : color := "\x1b[0m"

def Red : color := "\x1b[91m"

def Green : color := "\x1b[32m"

def Yellow : color := "\x1b[33m"

def Blue : color := "\x1b[34m"

def Magenta : color := "\x1b[35m"

def Cyan : color := "\x1b[36m"

def White : color := "\x1b[37m"

/-- The fixed palette `var colors = []color{...}` from the source. -/
def colors : List color := [Red, Green, Yellow, Blue, Magenta, Cyan, White]

/-- A UTF-8 code-unit sequence of a character, as the list of byte values the
Go runtime produces for it (`[]byte(s)` encodes the string as UTF-8). -/
def utf8EncodeChar (c : Char) : List Nat :=
  let n := c.toNat
  if n < 128 then [n]
  else if n < 2048 then [192 + n / 64, 128 + n % 64]
  else if n < 65536 then [224 + n / 4096, 128 + n / 64 % 64, 128 + n % 64]
  else [240 + n / 262144, 128 + n / 4096 % 64, 128 + n / 64 % 64, 128 + n % 64]

/-- The UTF-8 bytes of a string (Go `[]byte(s)`). -/
def utf8Bytes (s : String) : List Nat :=
  (s.data.map utf8EncodeChar).flatten

/-- FNV-1a 32-bit over a byte sequence: offset basis 2166136261, prime
16777619, arithmetic in `uint32` (modelled by an explicit `% 2^32` after the
multiplication; the xor of two values `< 2^32` stays `< 2^32`). -/
def fnv1a32 (bytes : List Nat) : Nat :=
  bytes.foldl (fun h b => ((h ^^^ b) * 16777619) % 4294967296) 2166136261

/-- Go `hash(s)`: `fnv.New32a()` written with the bytes of `s`. -/
def hash (s : String) : Nat := fnv1a32 (utf8Bytes s)

/-- The Go conversion `int(u)` for a `uint32` value `u`, with `int` 64-bit:
the value (reduced into the `uint32` range) is preserved and non-negative. -/
def goIntOfUint32 (n : Nat) : Int := Int.ofNat (n % 4294967296)

/-- Go `%` on `int` operands is truncated remainder. -/
def goMod (a b : Int) : Int := Int.tmod a b

/-- Go slice indexing `l[i]` with an `int` index: in-range access yields the
element; an out-of-range index is a runtime panic, represented by the
distinguished value `goPanic` (never equal to any palette entry). -/
def goPanic : color := "panic: index out of range"

def goIndex (l : List color) (i : Int) : color :=
  if 0 ≤ i ∧ i < Int.ofNat l.length then l.get! i.toNat else goPanic

/-- Sink handles: `os.Stdout` or any other `io.Writer` supplied by the caller
(identified abstractly). -/
inductive GoWriter where
  | stdout
  | handle (id : Nat)
deriving DecidableEq

/-- The `logger` struct: `tag string; color color; level level; writer io.Writer`. -/
structure logger where
  tag : String
  color : Logger.color
  level : Logger.level
  writer : GoWriter
deriving DecidableEq

/-- `type option func(*logger)`: a one-shot mutation of a freshly built logger. -/
abbrev option := logger → logger

/-- `func Writer(w io.Writer) option`. -/
def Writer (w : GoWriter) : option := fun log => { log with writer := w }

/-- `func Color(c color) option`. -/
def Color (c : color) : option := fun log => { log with color := c }

/-- `func Level(l level) option`. -/
def Level (l : level) : option := fun log => { log with level := l }

/-- `func New(tag string, opts ...option) Logger`: assign
`colors[int(hash(tag))%len(colors)]`, defaults `Info` and `os.Stdout`, then
apply the options in order. -/
def New (tag : String) (opts : List option) : logger :=
  opts.foldl (fun log opt => opt log)
    { tag := tag
      color := goIndex colors (goMod (goIntOfUint32 (hash tag)) (Int.ofNat colors.length))
      level := Info
      writer := GoWriter.stdout }

/-- An operand of a variadic print call (`...interface{}`): either a Go
string, or any other value together with its default `fmt` stringification. -/
inductive GoVal where
  | str (s : String)
  | other (text : String)
deriving DecidableEq

def GoVal.text : GoVal → String
  | .str s => s
  | .other t => t

def GoVal.isStr : GoVal → Bool
  | .str _ => true
  | .other _ => false

/-- `fmt.Sprint`: operands are concatenated; a single space is added between
two adjacent operands when neither is a string. -/
def sprint : List GoVal → String
  | [] => ""
  | [v] => v.text
  | v :: w :: rest => v.text ++ (if v.isStr || w.isStr then "" else " ") ++ sprint (w :: rest)

/-- A wall-clock instant already converted to UTC calendar components
(what `time.Now().UTC()` yields). -/
structure GoTime where
  year : Nat
  month : Nat
  day : Nat
  hour : Nat
  minute : Nat
  second : Nat
deriving DecidableEq

def pad2 (n : Nat) : String :=
  if n < 10 then "0" ++ toString n else toString n

def pad4 (n : Nat) : String :=
  if n < 10 then "000" ++ toString n
  else if n < 100 then "00" ++ toString n
  else if n < 1000 then "0" ++ toString n
  else toString n

/-- `time.Format(time.RFC3339)` on a UTC instant: `YYYY-MM-DDTHH:MM:SS`
followed by `Z` (the zero offset prints as `Z` under the `Z07:00` layout
suffix). -/
def timestamp (t : GoTime) : String :=
  pad4 t.year ++ "-" ++ pad2 t.month ++ "-" ++ pad2 t.day ++ "T" ++
    pad2 t.hour ++ ":" ++ pad2 t.minute ++ ":" ++ pad2 t.second ++ "Z"

/-- A word character of the regular-expression class `\w`: `[0-9A-Za-z_]`. -/
def isWordChar (c : Char) : Bool := c.isAlphanum || c == '_'

/-- A character matched by the regular-expression metacharacter `.`:
any character except newline. -/
def dotAny (c : Char) : Bool := c != '\n'

/-- Matching of the suffix `.*\)\.\w*.*?` of the source pattern against the
text following a literal `(`, with Go's leftmost-first (backtracking)
semantics: the greedy `.*` takes the longest newline-free stretch that still
leaves a `).` to consume, then the greedy `\w*` takes the longest word-character
run, and the lazy final `.*?` matches the empty string.  Returns the `.*`
stretch and the text after the consumed `).`. -/
def matchTail : List Char → Option (List Char × List Char)
  | [] => none
  | c :: cs =>
    match matchTail cs with
    | some (m, t) => if dotAny c then some (c :: m, t) else none
    | none =>
      match c, cs with
      | ')', '.' :: t => some ([], t)
      | _, _ => none

/-- Leftmost search for a match of the full pattern `\(.*\)\.\w*.*?`: scan for
the first position at which a match starts (it must start with `(`) and return
the matched substring. -/
def findFrom : List Char → Option String
  | [] => none
  | c :: cs =>
    if c = '(' then
      match matchTail cs with
      | some (m, t) => some (String.mk ('(' :: m ++ ')' :: '.' :: t.takeWhile isWordChar))
      | none => findFrom cs
    else findFrom cs

/-- `pattern.FindString(s)` for the compiled pattern
`regexp.MustCompile(` followed by the pattern text and `)`: the leftmost match,
or the empty string when there is none (the pattern cannot match the empty
string, since it must consume a literal `(`). -/
def patternFindString (s : String) : String :=
  match findFrom s.data with
  | some r => r
  | none => ""

/-- `func caller() string`.  The results of the stack inspection are passed in
explicitly: `ok` is the success flag of `runtime.Caller(3)` and `details` is
the function name when `runtime.FuncForPC` yields a descriptor (`none` for a
nil descriptor). -/
def caller (ok : Bool) (details : Option String) : String :=
  if !ok then "unknown caller"
  else
    match details with
    | none => "unknown caller"
    | some name =>
      let m := patternFindString name
      if m ≠ "" then m else name

/-- The environmental inputs of one logging call: the current UTC wall-clock
components, and the outcome of the stack introspection performed by `caller`. -/
structure Env where
  now : GoTime
  stackOk : Bool
  funcName : Option String

/-- Go `"%5s"`: the operand right-aligned in a field of width 5 — shorter
operands are padded with leading spaces, operands of length at least 5 are
unchanged. -/
def pad5 (s : String) : String :=
  if s.length < 5 then String.mk (List.replicate (5 - s.length) ' ') ++ s else s

/-- `func (self *logger) log(level string, s string)`: compose the single line
written to the sink.  The two `Fprintf` format strings of the source are
transcribed literally; the colored tag is
`fmt.Sprintf` of the color escape, the tag, and the reset escape. -/
def logger.log (self : logger) (env : Env) (lvl : String) (s : String) : String :=
  if self.tag ≠ "" then
    "[" ++ timestamp env.now ++ "] [" ++ pad5 lvl ++ "] [" ++
      (self.color ++ self.tag ++ NoColor) ++ "] [" ++
      caller env.stackOk env.funcName ++ "] " ++ s ++ "\n"
  else
    "[" ++ timestamp env.now ++ "] [" ++ pad5 lvl ++ "] [" ++
      caller env.stackOk env.funcName ++ "] " ++ s ++ "\n"

/-- `func (self *logger) format(a []interface{}) string`, i.e. `fmt.Sprint`. -/
def logger.format (_self : logger) (a : List GoVal) : String := sprint a

/-- The observable result of one public logging call: the lines it wrote to
the sink, and whether it terminated the process (`os.Exit`) with some code.
`exited code writes` means the call wrote `writes` and then the process ended
with exit status `code`; no code after the call ever runs. -/
inductive Outcome where
  | normal (writes : List String)
  | exited (code : Nat) (writes : List String)
deriving DecidableEq

def Outcome.writes : Outcome → List String
  | .normal ws => ws
  | .exited _ ws => ws

def logger.Fatal (self : logger) (env : Env) (a : List GoVal) : Outcome :=
  .exited 1 [self.log env "FATAL" (self.format a)]

/-- `Fatalf`; `composed` stands for `fmt.Sprintf(f, a...)`. -/
def logger.Fatalf (self : logger) (env : Env) (composed : String) : Outcome :=
  .exited 1 [self.log env "FATAL" composed]

def logger.Error (self : logger) (env : Env) (a : List GoVal) : Outcome :=
  if self.level ≤ Logger.Error then .normal [self.log env "ERROR" (self.format a)]
  else .normal []

def logger.Errorf (self : logger) (env : Env) (composed : String) : Outcome :=
  if self.level ≤ Logger.Error then .normal [self.log env "ERROR" composed]
  else .normal []

def logger.Warn (self : logger) (env : Env) (a : List GoVal) : Outcome :=
  if self.level ≤ Logger.Warn then .normal [self.log env "WARN" (self.format a)]
  else .normal []

def logger.Warnf (self : logger) (env : Env) (composed : String) : Outcome :=
  if self.level ≤ Logger.Warn then .normal [self.log env "WARN" composed]
  else .normal []

def logger.Info (self : logger) (env : Env) (a : List GoVal) : Outcome :=
  if self.level ≤ Logger.Info then .normal [self.log env "INFO" (self.format a)]
  else .normal []

def logger.Infof (self : logger) (env : Env) (composed : String) : Outcome :=
  if self.level ≤ Logger.Info then .normal [self.log env "INFO" composed]
  else .normal []

def logger.Debug (self : logger) (env : Env) (a : List GoVal) : Outcome :=
  if self.level ≤ Logger.Debug then .normal [self.log env "DEBUG" (self.format a)]
  else .normal []

def logger.Debugf (self : logger) (env : Env) (composed : String) : Outcome :=
  if self.level ≤ Logger.Debug then .normal [self.log env "DEBUG" composed]
  else .normal []

/-- One invocation of a public logging method, with its arguments
(`f`-variants carry the `Sprintf`-composed message). -/
inductive Call where
  | fatal (a : List GoVal)
  | fatalf (composed : String)
  | error (a : List GoVal)
  | errorf (composed : String)
  | warn (a : List GoVal)
  | warnf (composed : String)
  | info (a : List GoVal)
  | infof (composed : String)
  | debug (a : List GoVal)
  | debugf (composed : String)

/-- Dispatch a call to the corresponding method. -/
def run (self : logger) (env : Env) : Call → Outcome
  | .fatal a => self.Fatal env a
  | .fatalf s => self.Fatalf env s
  | .error a => self.Error env a
  | .errorf s => self.Errorf env s
  | .warn a => self.Warn env a
  | .warnf s => self.Warnf env s
  | .info a => self.Info env a
  | .infof s => self.Infof env s
  | .debug a => self.Debug env a
  | .debugf s => self.Debugf env s

/-- Operational view of one call on a state consisting of the logger and the
accumulated sink contents: the call appends its writes to the sink and leaves
the logger exactly as the code does (no method assigns to any field). -/
def exec (st : logger × List String) (env : Env) (c : Call) : logger × List String :=
  (st.1, st.2 ++ (run st.1 env c).writes)

/-! Helper lemmas about the hash and the palette index. -/

lemma fnv_foldl_lt (l : List Nat) (h : Nat) (hh : h < 4294967296) :
    l.foldl (fun h b => ((h ^^^ b) * 16777619) % 4294967296) h < 4294967296 := by
  induction l generalizing h with
  | nil => simpa using hh
  | cons b bs ih => exact ih _ (Nat.mod_lt _ (by norm_num))

lemma hash_lt (s : String) : hash s < 4294967296 :=
  fnv_foldl_lt _ _ (by norm_num)

lemma goMod_hash (s : String) :
    goMod (goIntOfUint32 (hash s)) (Int.ofNat colors.length) = Int.ofNat (hash s % 7) := by
  have h := hash_lt s
  show Int.tmod (Int.ofNat (hash s % 4294967296)) (Int.ofNat 7) = Int.ofNat (hash s % 7)
  rw [Nat.mod_eq_of_lt h]
  rfl

lemma colors_entry (k : Nat) (hk : k < 7) :
    colors.get! k ∈ colors ∧ colors.get! k ≠ NoColor ∧ colors.get! k ≠ goPanic := by
  interval_cases k <;> exact ⟨by decide, by decide, by decide⟩

lemma New_color (tag : String) : (New tag []).color = colors.get! (hash tag % 7) := by
  show goIndex colors (goMod (goIntOfUint32 (hash tag)) (Int.ofNat colors.length)) = _
  rw [goMod_hash]
  have hlt : hash tag % 7 < 7 := Nat.mod_lt _ (by norm_num)
  have hlt7 : Int.ofNat (hash tag % 7) < Int.ofNat colors.length := by
    show Int.ofNat (hash tag % 7) < Int.ofNat 7
    exact Int.ofNat_lt.mpr hlt
  rw [goIndex, if_pos ⟨Int.ofNat_nonneg _, hlt7⟩]
  rfl

/-! The claims. -/

/-- Claim C3: for every logger regardless of its minimum level, `Fatal` and
`Fatalf` always compose and write exactly one `FATAL`-labeled line to the sink
and then terminate the process with exit status 1 (non-zero); the `exited`
outcome reflects that `os.Exit` does not return, so no code after the call in
the caller executes. -/
theorem fatal_always_emits_and_exits (self : logger) (env : Env) (a : List GoVal)
    (s : String) :
    self.Fatal env a = .exited 1 [self.log env "FATAL" (self.format a)] ∧
    self.Fatalf env s = .exited 1 [self.log env "FATAL" s] ∧
    (self.Fatal env a).writes.length = 1 ∧
    (self.Fatalf env s).writes.length = 1 ∧
    pad5 "FATAL" = "FATAL" ∧ (1 : Nat) ≠ 0 :=
  ⟨rfl, rfl, rfl, rfl, by decide, by decide⟩

/-- Claim C4: the color assigned at construction is
`palette[FNV-1a-32(UTF-8 bytes of tag) mod 7]` for the fixed ordered palette
(Red, Green, Yellow, Blue, Magenta, Cyan, White); since the assignment is this
pure function of the tag, repeated construction with the same tag yields the
same color across instances and runs. -/
theorem color_from_fnv1a (tag : String) :
    (New tag []).color = colors.get! (fnv1a32 (utf8Bytes tag) % 7) ∧
    hash tag = fnv1a32 (utf8Bytes tag) ∧
    colors = [Red, Green, Yellow, Blue, Magenta, Cyan, White] ∧
    colors.length = 7 :=
  ⟨New_color tag, rfl, rfl, rfl⟩

/-- Claim C5: construction always succeeds and is a total function: `New`
computes the hash-derived color, defaults the minimum level to `Info` and the
sink to standard output, then applies the options in the order supplied
(left fold), so a later option overrides an earlier one touching the same
field — in particular a trailing `Writer`/`Color`/`Level` option decides the
corresponding field. -/
theorem new_construction (tag : String) (opts : List option) (w : GoWriter)
    (c : color) (l : level) :
    New tag opts = opts.foldl (fun log opt => opt log) (New tag []) ∧
    (New tag []).tag = tag ∧
    (New tag []).level = Logger.Info ∧
    (New tag []).writer = GoWriter.stdout ∧
    (New tag []).color = colors.get! (hash tag % 7) ∧
    (New tag (opts ++ [Writer w])).writer = w ∧
    (New tag (opts ++ [Color c])).color = c ∧
    (New tag (opts ++ [Level l])).level = l := by
  refine ⟨rfl, rfl, rfl, rfl, New_color tag, ?_, ?_, ?_⟩ <;>
    simp [New, List.foldl_append, Writer, Color, Level]

/-- Claim C9: for every tag (the empty string included, whose hash 2166136261
already exceeds the signed 32-bit range), the palette index
`int(hash(tag)) % len(colors)` is non-negative and below the palette size, so
the indexing in `New` never panics, and the assigned color is one of the seven
palette colors — never the reset code `NoColor` (Go `int` taken as 64-bit, so
the `uint32` hash converts without becoming negative). -/
theorem palette_index_safe (tag : String) :
    0 ≤ goMod (goIntOfUint32 (hash tag)) (Int.ofNat colors.length) ∧
    goMod (goIntOfUint32 (hash tag)) (Int.ofNat colors.length) < Int.ofNat colors.length ∧
    (New tag []).color ∈ colors ∧
    (New tag []).color ≠ NoColor ∧
    (New tag []).color ≠ goPanic ∧
    hash "" = 2166136261 := by
  have h7 := goMod_hash tag
  have hlt : hash tag % 7 < 7 := Nat.mod_lt _ (by norm_num)
  have hc := colors_entry (hash tag % 7) hlt
  refine ⟨?_, ?_, ?_, ?_, ?_, by decide⟩
  · rw [h7]; exact Int.ofNat_nonneg _
  · rw [h7]
    show Int.ofNat (hash tag % 7) < Int.ofNat 7
    exact Int.ofNat_lt.mpr hlt
  · rw [New_color]; exact hc.1
  · rw [New_color]; exact hc.2.1
  · rw [New_color]; exact hc.2.2

/-- Claim C10: every logging call leaves all four fields of the logger (tag,
color, level, writer) unchanged — the instance is immutable after `New` —
and the sink is only appended to: the call's writes extend the previous sink
contents, and that appended suffix does not depend on what the sink already
held (the sink is never read). -/
theorem logging_preserves_logger (l : logger) (sink : List String) (env : Env)
    (c : Call) :
    (exec (l, sink) env c).1 = l ∧
    (exec (l, sink) env c).1.tag = l.tag ∧
    (exec (l, sink) env c).1.color = l.color ∧
    (exec (l, sink) env c).1.level = l.level ∧
    (exec (l, sink) env c).1.writer = l.writer ∧
    ∃ ws, (exec (l, sink) env c).2 = sink ++ ws ∧
      ∀ sink2 : List String, (exec (l, sink2) env c).2 = sink2 ++ ws :=
  ⟨rfl, rfl, rfl, rfl, rfl, (run l env c).writes, rfl, fun _ => rfl⟩

lemma emit_iff (c : Prop) [Decidable c] (x : String) :
    (((if c then Outcome.normal [x] else Outcome.normal []) = Outcome.normal [x]) ↔ c) ∧
    (((if c then Outcome.normal [x] else Outcome.normal []) = Outcome.normal []) ↔ ¬c) := by
  by_cases h : c <;> simp [h]

/-- Claim C1: for every logger and every Debug/Debugf, Info/Infof, Warn/Warnf
or Error/Errorf call, the composed message is written to the sink — as the
single formatted line — if and only if the call's severity is at least the
configured minimum level, and a suppressed call produces the empty outcome
(no writes, no exit, no other effect).  In particular, with minimum level
`Warn`, Debug and Info calls write nothing while Warn and Error calls write
exactly one line. -/
theorem severity_filtering (self : logger) (env : Env) (a : List GoVal) (s : String) :
    ((self.Debug env a = .normal [self.log env "DEBUG" (self.format a)]) ↔
      Logger.Debug ≥ self.level) ∧
    ((self.Debugf env s = .normal [self.log env "DEBUG" s]) ↔ Logger.Debug ≥ self.level) ∧
    ((self.Debug env a = .normal []) ↔ ¬Logger.Debug ≥ self.level) ∧
    ((self.Debugf env s = .normal []) ↔ ¬Logger.Debug ≥ self.level) ∧
    ((self.Info env a = .normal [self.log env "INFO" (self.format a)]) ↔
      Logger.Info ≥ self.level) ∧
    ((self.Infof env s = .normal [self.log env "INFO" s]) ↔ Logger.Info ≥ self.level) ∧
    ((self.Info env a = .normal []) ↔ ¬Logger.Info ≥ self.level) ∧
    ((self.Infof env s = .normal []) ↔ ¬Logger.Info ≥ self.level) ∧
    ((self.Warn env a = .normal [self.log env "WARN" (self.format a)]) ↔
      Logger.Warn ≥ self.level) ∧
    ((self.Warnf env s = .normal [self.log env "WARN" s]) ↔ Logger.Warn ≥ self.level) ∧
    ((self.Warn env a = .normal []) ↔ ¬Logger.Warn ≥ self.level) ∧
    ((self.Warnf env s = .normal []) ↔ ¬Logger.Warn ≥ self.level) ∧
    ((self.Error env a = .normal [self.log env "ERROR" (self.format a)]) ↔
      Logger.Error ≥ self.level) ∧
    ((self.Errorf env s = .normal [self.log env "ERROR" s]) ↔ Logger.Error ≥ self.level) ∧
    ((self.Error env a = .normal []) ↔ ¬Logger.Error ≥ self.level) ∧
    ((self.Errorf env s = .normal []) ↔ ¬Logger.Error ≥ self.level) ∧
    (({ self with level := Logger.Warn } : logger).Debug env a = .normal []) ∧
    (({ self with level := Logger.Warn } : logger).Info env a = .normal []) ∧
    ((({ self with level := Logger.Warn } : logger).Warn env a).writes.length = 1) ∧
    ((({ self with level := Logger.Warn } : logger).Error env a).writes.length = 1) := by
  have hwd : ¬((Logger.Warn : Nat) ≤ Logger.Debug) := by decide
  have hwi : ¬((Logger.Warn : Nat) ≤ Logger.Info) := by decide
  have hww : (Logger.Warn : Nat) ≤ Logger.Warn := by decide
  have hwe : (Logger.Warn : Nat) ≤ Logger.Error := by decide
  exact ⟨(emit_iff _ _).1, (emit_iff _ _).1, (emit_iff _ _).2, (emit_iff _ _).2,
    (emit_iff _ _).1, (emit_iff _ _).1, (emit_iff _ _).2, (emit_iff _ _).2,
    (emit_iff _ _).1, (emit_iff _ _).1, (emit_iff _ _).2, (emit_iff _ _).2,
    (emit_iff _ _).1, (emit_iff _ _).1, (emit_iff _ _).2, (emit_iff _ _).2,
    by simp [logger.Debug, hwd], by simp [logger.Info, hwi],
    by simp [logger.Warn, hww, Outcome.writes], by simp [logger.Error, hwe, Outcome.writes]⟩

/-- Claim C2: every non-suppressed call writes exactly one line; with a
non-empty tag the line is
`[<timestamp>] [<LEVEL>] [<coloredTag>] [<caller>] <message>` plus a newline,
where the colored tag is the tag wrapped in the assigned color escape and the
reset escape `NoColor`; with an empty tag the tag bracket segment is omitted
entirely.  The timestamp is the RFC 3339 rendering of the current UTC time
(passed through `Env`). -/
theorem line_format (self : logger) (env : Env) (lvl : String) (s : String) :
    (self.tag ≠ "" →
      self.log env lvl s =
        "[" ++ timestamp env.now ++ "] [" ++ pad5 lvl ++ "] [" ++
          (self.color ++ self.tag ++ NoColor) ++ "] [" ++
          caller env.stackOk env.funcName ++ "] " ++ s ++ "\n") ∧
    (self.tag = "" →
      self.log env lvl s =
        "[" ++ timestamp env.now ++ "] [" ++ pad5 lvl ++ "] [" ++
          caller env.stackOk env.funcName ++ "] " ++ s ++ "\n") := by
  constructor
  · intro h
    simp only [logger.log]
    rw [if_pos h]
  · intro h
    simp only [logger.log]
    rw [if_neg (by simp [h])]

theorem line_format_witness :
    logger.log ⟨"svc", Red, 1, GoWriter.stdout⟩
        ⟨⟨2024, 1, 2, 15, 4, 5⟩, true, some "main.main"⟩ "INFO" "hi" =
      "[" ++ timestamp ⟨2024, 1, 2, 15, 4, 5⟩ ++ "] [" ++ pad5 "INFO" ++ "] [" ++
        (Red ++ "svc" ++ NoColor) ++ "] [" ++ caller true (some "main.main") ++ "] " ++
        "hi" ++ "\n" ∧
    logger.log ⟨"", Red, 1, GoWriter.stdout⟩
        ⟨⟨2024, 1, 2, 15, 4, 5⟩, true, some "main.main"⟩ "INFO" "hi" =
      "[" ++ timestamp ⟨2024, 1, 2, 15, 4, 5⟩ ++ "] [" ++ pad5 "INFO" ++ "] [" ++
        caller true (some "main.main") ++ "] " ++ "hi" ++ "\n" :=
  ⟨(line_format ⟨"svc", Red, 1, GoWriter.stdout⟩
      ⟨⟨2024, 1, 2, 15, 4, 5⟩, true, some "main.main"⟩ "INFO" "hi").1 (by decide),
   (line_format ⟨"", Red, 1, GoWriter.stdout⟩
      ⟨⟨2024, 1, 2, 15, 4, 5⟩, true, some "main.main"⟩ "INFO" "hi").2 rfl⟩

/-- Claim C6: the `<LEVEL>` field is always exactly 5 characters wide: each of
the five labels padded by `%5s` has length 5, a 4-character label (WARN, INFO)
gains one leading space, and a 5-character label (FATAL, ERROR, DEBUG) is
unchanged; concretely `INFO` becomes `" INFO"` and `WARN` becomes `" WARN"`. -/
theorem level_field_width (lvl : String)
    (h : lvl ∈ ["FATAL", "ERROR", "WARN", "INFO", "DEBUG"]) :
    ((pad5 lvl).length = 5 ∧
      (lvl.length = 4 → pad5 lvl = " " ++ lvl) ∧
      (lvl.length = 5 → pad5 lvl = lvl)) ∧
    pad5 "INFO" = " INFO" ∧ pad5 "WARN" = " WARN" ∧
    pad5 "FATAL" = "FATAL" ∧ pad5 "ERROR" = "ERROR" ∧ pad5 "DEBUG" = "DEBUG" := by
  refine ⟨?_, by decide, by decide, by decide, by decide, by decide⟩
  fin_cases h <;> exact ⟨by decide, by decide, by decide⟩

theorem level_field_width_witness :
    ((pad5 "INFO").length = 5 ∧
      (("INFO" : String).length = 4 → pad5 "INFO" = " " ++ "INFO") ∧
      (("INFO" : String).length = 5 → pad5 "INFO" = "INFO")) ∧
    pad5 "INFO" = " INFO" ∧ pad5 "WARN" = " WARN" ∧
    pad5 "FATAL" = "FATAL" ∧ pad5 "ERROR" = "ERROR" ∧ pad5 "DEBUG" = "DEBUG" :=
  level_field_width "INFO" (by decide)

/-- Claim C7: caller resolution never fails the log call: when the stack
information at the fixed inspection depth is unavailable (`runtime.Caller` not
ok), or the program counter maps to no function descriptor
(`runtime.FuncForPC` nil), `caller` returns the literal string
`"unknown caller"` instead of an error. -/
theorem caller_unknown_graceful (env : Env) :
    (env.stackOk = false → caller env.stackOk env.funcName = "unknown caller") ∧
    (env.funcName = none → caller env.stackOk env.funcName = "unknown caller") := by
  constructor
  · intro h; rw [h]; rfl
  · intro h; rw [h]; cases env.stackOk <;> rfl

theorem caller_unknown_graceful_witness :
    caller false (some "main.main") = "unknown caller" ∧
    caller true none = "unknown caller" :=
  ⟨(caller_unknown_graceful ⟨⟨2024, 1, 2, 15, 4, 5⟩, false, some "main.main"⟩).1 rfl,
   (caller_unknown_graceful ⟨⟨2024, 1, 2, 15, 4, 5⟩, true, none⟩).2 rfl⟩

/-! Soundness and completeness of the matcher for the caller-name pattern. -/

lemma matchTail_sound (cs : List Char) :
    ∀ m t, matchTail cs = some (m, t) →
      cs = m ++ ')' :: '.' :: t ∧ m.all dotAny = true := by
  induction cs with
  | nil => intro m t h; simp [matchTail] at h
  | cons c cs ih =>
    intro m t h
    cases hmt : matchTail cs with
    | some p =>
      obtain ⟨m', t'⟩ := p
      by_cases hd : dotAny c
      · simp [matchTail, hmt, hd] at h
        obtain ⟨hm, ht⟩ := h
        obtain ⟨he, ha⟩ := ih m' t' hmt
        subst hm ht
        exact ⟨by simp [he], by simp [List.all_cons, hd, ha]⟩
      · simp [matchTail, hmt, hd] at h
    | none =>
      simp only [matchTail, hmt] at h
      split at h
      · rename_i t' _
        simp at h
        obtain ⟨hm, ht⟩ := h
        subst hm ht
        exact ⟨rfl, rfl⟩
      · simp at h

lemma matchTail_isSome (cs : List Char)
    (h : ∃ m t, cs = m ++ ')' :: '.' :: t ∧ m.all dotAny = true) :
    (matchTail cs).isSome := by
  induction cs with
  | nil =>
    obtain ⟨m, t, he, _⟩ := h
    exact absurd he (by simp)
  | cons c cs ih =>
    obtain ⟨m, t, he, ha⟩ := h
    cases m with
    | nil =>
      simp only [List.nil_append] at he
      injection he with hc hcs
      subst hc
      subst hcs
      generalize hg : ('.' :: t : List Char) = cs0
      cases hmt : matchTail cs0 with
      | none =>
        simp only [matchTail, hmt]
        subst hg
        simp
      | some p =>
        obtain ⟨mm, tt⟩ := p
        simp only [matchTail, hmt]
        simp [dotAny]
    | cons c' m' =>
      simp only [List.cons_append] at he
      have hc : c = c' := (List.cons.injEq ..).mp he |>.1
      have hcs : cs = m' ++ ')' :: '.' :: t := (List.cons.injEq ..).mp he |>.2
      subst hc
      have ha' : dotAny c = true ∧ m'.all dotAny = true := by
        simpa [List.all_cons] using ha
      have hsome := ih ⟨m', t, hcs, ha'.2⟩
      cases hmt : matchTail cs with
      | none => rw [hmt] at hsome; simp at hsome
      | some p =>
        obtain ⟨mm, tt⟩ := p
        simp [matchTail, hmt, ha'.1]

lemma findFrom_sound (cs : List Char) :
    ∀ r, findFrom cs = some r →
      ∃ pre m t, cs = pre ++ '(' :: (m ++ ')' :: '.' :: t) ∧ m.all dotAny = true ∧
        r = String.mk ('(' :: m ++ ')' :: '.' :: t.takeWhile isWordChar) := by
  induction cs with
  | nil => intro r h; simp [findFrom] at h
  | cons c cs ih =>
    intro r h
    by_cases hc : c = '('
    · subst hc
      cases hmt : matchTail cs with
      | some p =>
        obtain ⟨m, t⟩ := p
        have hs := matchTail_sound cs m t hmt
        simp [findFrom, hmt] at h
        exact ⟨[], m, t, by simp [hs.1], hs.2, h.symm⟩
      | none =>
        simp [findFrom, hmt] at h
        obtain ⟨pre, m, t, he, ha, hr⟩ := ih r h
        exact ⟨'(' :: pre, m, t, by simp [he], ha, hr⟩
    · simp only [findFrom, if_neg hc] at h
      obtain ⟨pre, m, t, he, ha, hr⟩ := ih r h
      exact ⟨c :: pre, m, t, by simp [he], ha, hr⟩

lemma findFrom_isSome (cs : List Char)
    (h : ∃ pre m t, cs = pre ++ '(' :: (m ++ ')' :: '.' :: t) ∧ m.all dotAny = true) :
    (findFrom cs).isSome := by
  induction cs with
  | nil =>
    obtain ⟨pre, m, t, he, _⟩ := h
    exact absurd he (by simp)
  | cons c cs ih =>
    obtain ⟨pre, m, t, he, ha⟩ := h
    cases pre with
    | nil =>
      simp only [List.nil_append] at he
      have hc : c = '(' := (List.cons.injEq ..).mp he |>.1
      have hcs : cs = m ++ ')' :: '.' :: t := (List.cons.injEq ..).mp he |>.2
      subst hc
      have hs := matchTail_isSome cs ⟨m, t, hcs, ha⟩
      cases hmt : matchTail cs with
      | none => rw [hmt] at hs; simp at hs
      | some p => simp [findFrom, hmt]
    | cons p' pre' =>
      simp only [List.cons_append] at he
      have hcs : cs = pre' ++ '(' :: (m ++ ')' :: '.' :: t) :=
        (List.cons.injEq ..).mp he |>.2
      have hs := ih ⟨pre', m, t, hcs, ha⟩
      by_cases hcp : c = '('
      · cases hmt : matchTail cs with
        | some q => simp [findFrom, hcp, hmt]
        | none => simpa [findFrom, hcp, hmt] using hs
      · simpa [findFrom, hcp] using hs

/-- The name contains a parenthesized receiver type followed by a dotted
method name: somewhere in the string a `(` is followed (after a newline-free
stretch) by `).` — exactly the texts on which the source pattern has a match. -/
def hasRecvPattern (s : String) : Prop :=
  ∃ pre m t, s.data = pre ++ '(' :: (m ++ ')' :: '.' :: t) ∧ m.all dotAny = true

lemma hasRecv_iff_findFrom (s : String) :
    hasRecvPattern s ↔ (findFrom s.data).isSome := by
  constructor
  · exact fun h => findFrom_isSome _ h
  · intro h
    cases hf : findFrom s.data with
    | none => rw [hf] at h; simp at h
    | some r =>
      obtain ⟨pre, m, t, he, ha, _⟩ := findFrom_sound _ r hf
      exact ⟨pre, m, t, he, ha⟩

/-- Claim C8: for a successfully resolved fully-qualified caller name, if the
name matches the receiver pattern `(...).<word chars>` (a `(` later closed by
`).` with no intervening newline), the `<caller>` field is the matched
substring — the leftmost match, of shape `(` middle `).` word-run; otherwise
the field is the full qualified name unmodified. -/
theorem caller_receiver_extraction (name : String) :
    (hasRecvPattern name →
      ∃ pre m t, name.data = pre ++ '(' :: (m ++ ')' :: '.' :: t) ∧
        m.all dotAny = true ∧
        caller true (some name) =
          String.mk ('(' :: m ++ ')' :: '.' :: t.takeWhile isWordChar)) ∧
    (¬hasRecvPattern name → caller true (some name) = name) := by
  constructor
  · intro h
    have hs := (hasRecv_iff_findFrom name).1 h
    cases hf : findFrom name.data with
    | none => rw [hf] at hs; simp at hs
    | some r =>
      obtain ⟨pre, m, t, he, ha, hr⟩ := findFrom_sound _ r hf
      refine ⟨pre, m, t, he, ha, ?_⟩
      have hne : r ≠ "" := by
        rw [hr]
        intro hcon
        have hd : ('(' :: m ++ ')' :: '.' :: t.takeWhile isWordChar) = ([] : List Char) :=
          congrArg String.data hcon
        simp at hd
      have hps : patternFindString name = r := by
        unfold patternFindString
        rw [hf]
      show (if patternFindString name ≠ "" then patternFindString name else name) =
        String.mk ('(' :: m ++ ')' :: '.' :: t.takeWhile isWordChar)
      rw [hps, if_pos hne]
      exact hr
  · intro h
    have hnone : findFrom name.data = none := by
      cases hf : findFrom name.data with
      | none => rfl
      | some r => exact absurd ((hasRecv_iff_findFrom name).2 (by rw [hf]; simp)) h
    simp [caller, patternFindString, hnone]

theorem caller_receiver_extraction_witness :
    caller true (some "runtime.main") = "runtime.main" ∧
    (∃ pre m t, ("pkg.(*T).Method" : String).data =
        pre ++ '(' :: (m ++ ')' :: '.' :: t) ∧
      m.all dotAny = true ∧
      caller true (some "pkg.(*T).Method") =
        String.mk ('(' :: m ++ ')' :: '.' :: t.takeWhile isWordChar)) :=
  ⟨(caller_receiver_extraction "runtime.main").2 (fun h => by
      have hs := (hasRecv_iff_findFrom "runtime.main").1 h
      revert hs; decide),
   (caller_receiver_extraction "pkg.(*T).Method").1
      ((hasRecv_iff_findFrom "pkg.(*T).Method").2 (by decide))⟩

end Logger
